import Mathlib

/-!
Verification of the KatamariSDK transactional storage stack.

The development shallowly embeds:
* the `WALManager` write-ahead-log facility of `KatamariSDK/KatamariFailover.py`,
* the `KatamariSearch` index of `KatamariSDK/KatamariSearch.py`,
* the MVCC engine `KatamariDB.KatamariMVCC` (imported by every consumer but
  not shipped in the sources, so it is modelled from the specification), and
* the engine-consuming control flow of `KatamariIAM.create_user` and the
  example data pullers (`AirQual.py`, `EarthQuake.py`, `FlightTracker.py`,
  `IoTTracker.py`).

Time is modelled as a `Nat` clock held in the engine state; every call to
`now()` reads the clock, and the state-changing calls (`begin_transaction`,
`commit`) advance it, which realizes the monotone, strictly commit-ordering
clock the specification demands.
-/

namespace Katamari

/-- Association-list lookup: returns the value bound to the first occurrence
of key `k`, mirroring a Python `dict` access. -/
def alookup {α β : Type} [DecidableEq α] (k : α) : List (α × β) → Option β
  | [] => none
  | (k', v) :: rest => if k' = k then some v else alookup k rest

/-- Association-list update: replaces the binding of the first occurrence of
`k`, or appends the binding, mirroring `d[k] = v` on a Python `dict`. -/
def aset {α β : Type} [DecidableEq α] (k : α) (v : β) : List (α × β) → List (α × β)
  | [] => [(k, v)]
  | (k', v') :: rest => if k' = k then (k, v) :: rest else (k', v') :: aset k v rest

/-- Association-list deletion: removes every binding of `k`, mirroring the
removal of a file from a directory. -/
def aerase {α β : Type} [DecidableEq α] (k : α) (l : List (α × β)) : List (α × β) :=
  l.filter (fun p => p.1 ≠ k)

/-! ## Write-ahead log (`WALManager`, `KatamariSDK/KatamariFailover.py` lines 7-49)

The log directory is modelled as an association list from file name to file
content. `write_log` writes `str(data)` to `<transaction_id>.wal`; payloads
are modelled as the strings that end up in the file. -/

/-- The WAL directory: one file per transaction id, mapping file name to
serialized payload. -/
abbrev WALState := List (String × String)

/-- File name used by `WALManager` for a transaction id:
`f"{transaction_id}.wal"`. -/
def walFilename (transaction_id : String) : String := transaction_id ++ ".wal"

/-- `WALManager.write_log`: opens `<id>.wal` for writing and stores the
payload, truncating any previous content. -/
def write_log (st : WALState) (transaction_id : String) (data : String) : WALState :=
  aset (walFilename transaction_id) data st

/-- `WALManager.read_log`: reads `<id>.wal`; `none` models the
`FileNotFoundError` raised when the file does not exist. -/
def read_log (st : WALState) (transaction_id : String) : Option String :=
  alookup (walFilename transaction_id) st

/-- `WALManager.delete_log`: removes `<id>.wal` only if it exists
(`if os.path.exists(log_path): os.remove(log_path)`), so it never raises. -/
def delete_log (st : WALState) (transaction_id : String) : WALState :=
  match alookup (walFilename transaction_id) st with
  | some _ => aerase (walFilename transaction_id) st
  | none => st

/-- A WAL operation issued between a write and a read-back. -/
inductive WALOp : Type
  | writeOp (transaction_id : String) (data : String)
  | deleteOp (transaction_id : String)
deriving DecidableEq, Repr

/-- Apply one WAL operation to the directory state. -/
def walStep (st : WALState) : WALOp → WALState
  | .writeOp t d => write_log st t d
  | .deleteOp t => delete_log st t

/-- Run a sequence of WAL operations. -/
def walRun (st : WALState) (ops : List WALOp) : WALState :=
  ops.foldl walStep st

/-- Whether a WAL operation addresses the given transaction id. -/
def touches (t : String) : WALOp → Bool
  | .writeOp t' _ => t' = t
  | .deleteOp t' => t' = t

/-! ## The MVCC engine (`KatamariDB.KatamariMVCC`)

The module `KatamariSDK/KatamariDB.py` is imported by every consumer
(`KatamariIAM`, `KatamariFido`, `KatamariCLI`, the four examples) but its
source is not part of the shipped tree, so the engine is modelled from the
specification (§3, §4.1, §4.2, §5). -/

/-- Values stored by consumers are Python dicts of strings; an association
list models them (also giving the Python truthiness notion: an empty dict is
falsy). -/
abbrev Value := List (String × String)

/-- Modelled from the spec: a Version is the immutable record
`(value, commit_timestamp, version_number, committing_transaction)` (§3). -/
structure Version where
  value : Value
  commit_timestamp : Nat
  version_number : Nat
  committing_transaction : Nat
deriving DecidableEq, Repr

/-- Modelled from the spec: transaction status `{Active, Committed, Aborted}`
(§3). -/
inductive TxStatus : Type
  | active
  | committed
  | aborted
deriving DecidableEq, Repr

/-- Modelled from the spec: a Transaction holds its `start_timestamp`, its
private write buffer (key → pending value) and its status (§3); its id is the
key under which the engine registers it. -/
structure Transaction where
  start_timestamp : Nat
  write_buffer : List (String × Value)
  status : TxStatus
deriving DecidableEq, Repr

/-- Modelled from the spec: Engine State is a mapping from key to Version
Chain plus a mapping from transaction id to Transaction, initialized empty
(§3); `clock` is the monotone time source and `next_id` the fresh-id source. -/
structure EngineState where
  store : List (String × List Version)
  transactions : List (Nat × Transaction)
  clock : Nat
  next_id : Nat
deriving DecidableEq, Repr

/-- Modelled from the spec: error taxonomy of §7 (`UnknownTransaction`,
`IOFailure`). -/
inductive KatamariError : Type
  | unknownTransaction
  | ioFailure
deriving DecidableEq, Repr

/-- Modelled from the spec: the engine starts with empty store and
transaction table (§3). -/
def initState : EngineState := ⟨[], [], 0, 0⟩

/-- The Version Chain for a key (empty when the key was never committed). -/
def chainOf (st : EngineState) (key : String) : List Version :=
  (alookup key st.store).getD []

/-- Modelled from the spec: `latest_at_or_before(key, timestamp)` returns the
version with greatest `commit_timestamp` ≤ the timestamp, or absent (§4.2);
chains are appended in commit order, so it is the last satisfying entry. -/
def latest_at_or_before (chain : List Version) (ts : Nat) : Option Version :=
  (chain.filter (fun v => v.commit_timestamp ≤ ts)).getLast?

/-- Modelled from the spec: `version_number = previous_max + 1`, starting at 1
if the chain is empty (§4.1 commit step 3). -/
def next_version_number (chain : List Version) : Nat :=
  (chain.map (fun v => v.version_number)).foldl Nat.max 0 + 1

/-- Modelled from the spec: `begin_transaction()` returns a fresh id,
registers an Active transaction with `start_timestamp = now()` and an empty
write buffer, and advances time (§4.1). -/
def begin_transaction (st : EngineState) : Nat × EngineState :=
  (st.next_id,
   { st with
       transactions := aset st.next_id ⟨st.clock, [], .active⟩ st.transactions
       clock := st.clock + 1
       next_id := st.next_id + 1 })

/-- Modelled from the spec: `get(key, transaction_id)` (§4.1): a
transaction's own buffered write wins; otherwise the Version Chain is
resolved at the transaction's `start_timestamp` (snapshot isolation) or at
the current time when no transaction id is given; fails with
`UnknownTransaction` when a given id is not an Active transaction. -/
def get (st : EngineState) (key : String) (txId : Option Nat) :
    Except KatamariError (Option Value) :=
  match txId with
  | none => .ok ((latest_at_or_before (chainOf st key) st.clock).map (fun v => v.value))
  | some t =>
    match alookup t st.transactions with
    | some tx =>
      if tx.status = .active then
        match alookup key tx.write_buffer with
        | some v => .ok (some v)
        | none =>
          .ok ((latest_at_or_before (chainOf st key) tx.start_timestamp).map
                (fun v => v.value))
      else .error .unknownTransaction
    | none => .error .unknownTransaction

/-- Modelled from the spec: `put(key, value, transaction_id)` stores the value
in the Active transaction's write buffer, overwriting a prior buffered value
for the key; no version is created; fails with `UnknownTransaction` otherwise
(§4.1). -/
def put (st : EngineState) (key : String) (v : Value) (t : Nat) :
    Except KatamariError EngineState :=
  match alookup t st.transactions with
  | some tx =>
    if tx.status = .active then
      .ok { st with
              transactions :=
                aset t { tx with write_buffer := aset key v tx.write_buffer }
                  st.transactions }
    else .error .unknownTransaction
  | none => .error .unknownTransaction

/-- Append one committed version to a key's chain (§4.2 `append`), with the
commit timestamp shared by the whole commit and
`version_number = previous_max + 1`. -/
def append_version (store : List (String × List Version)) (key : String)
    (v : Value) (cts : Nat) (t : Nat) : List (String × List Version) :=
  let chain := (alookup key store).getD []
  aset key (chain ++ [⟨v, cts, next_version_number chain, t⟩]) store

/-- Append every buffered `(key, value)` of one commit to the store, all
sharing the commit timestamp `cts` (§4.1 commit step 3). -/
def commitStore (buf : List (String × Value)) (store : List (String × List Version))
    (cts : Nat) (t : Nat) : List (String × List Version) :=
  buf.foldl (fun s kv => append_version s kv.1 kv.2 cts t) store

/-- Modelled from the spec: `commit(transaction_id)` appends one new Version
per buffered key, all sharing one commit timestamp, marks the transaction
Committed and advances time; fails with `UnknownTransaction` when the id is
invalid or terminal (§4.1). -/
def commit (st : EngineState) (t : Nat) : Except KatamariError EngineState :=
  match alookup t st.transactions with
  | some tx =>
    if tx.status = .active then
      .ok { st with
              store := commitStore tx.write_buffer st.store st.clock t
              transactions := aset t { tx with status := .committed } st.transactions
              clock := st.clock + 1 }
    else .error .unknownTransaction
  | none => .error .unknownTransaction

/-- Modelled from the spec: `rollback(transaction_id)` discards the write
buffer, marks the transaction Aborted and creates no Versions; fails with
`UnknownTransaction` when the id is invalid or terminal (§4.1). -/
def rollback (st : EngineState) (t : Nat) : Except KatamariError EngineState :=
  match alookup t st.transactions with
  | some tx =>
    if tx.status = .active then
      .ok { st with
              transactions :=
                aset t { tx with write_buffer := [], status := .aborted }
                  st.transactions }
    else .error .unknownTransaction
  | none => .error .unknownTransaction

/-- One engine operation of the public contract (§6); `get` does not change
state and is omitted from state traces. -/
inductive Op : Type
  | beginTx
  | putOp (key : String) (v : Value) (t : Nat)
  | commitOp (t : Nat)
  | rollbackOp (t : Nat)
deriving DecidableEq, Repr

/-- Apply one operation; a rejected operation (`UnknownTransaction`) causes
no state change (§7). -/
def step (st : EngineState) : Op → EngineState
  | .beginTx => (begin_transaction st).2
  | .putOp k v t => ((put st k v t).toOption).getD st
  | .commitOp t => ((commit st t).toOption).getD st
  | .rollbackOp t => ((rollback st t).toOption).getD st

/-- Run a sequence of engine operations from the initial empty state. -/
def run (ops : List Op) : EngineState :=
  ops.foldl step initState

/-- Apply a sequence of `put` calls under one transaction (a rejected `put`
changes nothing). -/
def putsUnder (st : EngineState) (t : Nat) (puts : List (String × Value)) :
    EngineState :=
  puts.foldl (fun s kv => ((put s kv.1 kv.2 t).toOption).getD s) st

/-! ## Consumers of the engine -/

/-- Python truthiness of a dict value: an empty dict is falsy. -/
def truthy (v : Value) : Bool := !v.isEmpty

/-- Python truthiness of an optional record: `None` is falsy, a dict is
truthy iff non-empty. -/
def truthyOpt : Option Value → Bool
  | none => false
  | some v => truthy v

/-- Per-record handler of the data pullers (`FlightTracker.py` lines 60-69,
`IoTTracker.py` lines 57-64, and the same shape in `AirQual.py` and
`EarthQuake.py`): read the existing record under the batch transaction, test
it with `if existing_record:` (Python truthiness), and `put` only when the
comparison `existing_record != fetched` holds or the truthiness test fails.
Returns the new state and whether a `put` was issued. -/
def handle_record (st : EngineState) (t : Nat) (key : String) (info : Value) :
    EngineState × Bool :=
  let existing : Option Value := ((get st key (some t)).toOption).getD none
  if truthyOpt existing then
    if existing ≠ some info then (((put st key info t).toOption).getD st, true)
    else (st, false)
  else (((put st key info t).toOption).getD st, true)

/-- Exception handler of the data pullers (`AirQual.py` lines 73-74,
`EarthQuake.py` lines 71-72, `FlightTracker.py` lines 81-82, `IoTTracker.py`
lines 75-76): `if tx_id in db.transactions: db.rollback(tx_id)`. -/
def puller_on_exception (st : EngineState) (t : Nat) : EngineState :=
  if (alookup t st.transactions).isSome then ((rollback st t).toOption).getD st
  else st

/-- `KatamariIAM.create_user` (`KatamariIAM.py` lines 93-114), restricted to
its engine calls: begin a transaction, test `if get(f"user:{username}", tx)`
(Python truthiness); when it is truthy a `ValueError` is raised and the
`except` handler runs `self.katamari_mvcc.commit(tx_id)` (line 114);
otherwise the user record is `put` and the transaction committed (line 110).
The vault/hash side effects do not touch the engine and are omitted. -/
def create_user (st : EngineState) (username : String) (userVal : Value) :
    EngineState :=
  let t := (begin_transaction st).1
  let st1 := (begin_transaction st).2
  let existing : Option Value :=
    ((get st1 ("user:" ++ username) (some t)).toOption).getD none
  if truthyOpt existing then
    ((commit st1 t).toOption).getD st1
  else
    let st2 := ((put st1 ("user:" ++ username) userVal t).toOption).getD st1
    ((commit st2 t).toOption).getD st2

/-! ## Search index (`KatamariSearch`, `KatamariSDK/KatamariSearch.py`) -/

/-- A document held by the Whoosh index: the stored `id`, the stored
`timestamp` (commit time) and the remaining stored fields. -/
structure SearchDoc where
  docId : String
  timestamp : Nat
  fields : List (String × String)
deriving DecidableEq, Repr

/-- `KatamariSearch.search` (lines 57-65): the Whoosh query match is external
and abstracted as `matchFn`; the method then filters the matches by
`result['timestamp'] <= datetime.utcfromtimestamp(tx_start_time)`
(`utcfromtimestamp` is strictly monotone, so the comparison is `≤` on raw
timestamps). -/
def search (matchFn : String → List String → SearchDoc → Bool)
    (index : List SearchDoc) (query_str : String) (tx_start_time : Nat)
    (schema_fields : List String) : List SearchDoc :=
  let results := index.filter (matchFn query_str schema_fields)
  results.filter (fun r => r.timestamp ≤ tx_start_time)

/-- Field constructors accepted by `KatamariSearch._create_schema`. -/
inductive FieldSpec : Type
  | idField
  | textField
  | numericField
  | datetimeField
deriving DecidableEq, Repr

/-- Python exceptions raised by `KatamariSearch`. -/
inductive PyError : Type
  | attributeError (msg : String)
  | valueError (msg : String)
deriving DecidableEq, Repr

/-- `KatamariSearch._create_schema` (lines 18-36): starts from
`{'id': ID(...), 'timestamp': DATETIME(...)}` and iterates
`fields.items()`; when `fields` is `None` the `.items()` access raises
`AttributeError`; an unsupported field type raises `ValueError`. -/
def create_schema (fields : Option (List (String × String))) :
    Except PyError (List (String × FieldSpec)) :=
  match fields with
  | none => .error (.attributeError "NoneType object has no attribute items")
  | some fs =>
    fs.foldlM
      (fun acc p =>
        if p.2 = "TEXT" then .ok (aset p.1 FieldSpec.textField acc)
        else if p.2 = "NUMERIC" then .ok (aset p.1 FieldSpec.numericField acc)
        else if p.2 = "DATETIME" then .ok (aset p.1 FieldSpec.datetimeField acc)
        else .error (.valueError ("Unsupported field type: " ++ p.2)))
      [("id", FieldSpec.idField), ("timestamp", FieldSpec.datetimeField)]

/-- `KatamariSearch.__init__` (lines 13-16): `self.schema =
self._create_schema(schema_fields)` with `schema_fields` defaulting to
`None`. -/
def katamariSearch_init (schema_fields : Option (List (String × String))) :
    Except PyError (List (String × FieldSpec)) :=
  create_schema schema_fields

/-! ## Concrete states used by witnesses and counterexamples -/

/-- A state with one committed version of `"user:alice"` and no live
transactions. -/
def stUserExists : EngineState :=
  ⟨[("user:alice", [⟨[("username", "alice")], 0, 1, 0⟩])], [], 1, 1⟩

/-- A state in which transaction 0 (snapshot time 0) and transaction 1
(snapshot time 1, one buffered write to `"a"`) are both active. -/
def stTwoTx : EngineState :=
  ⟨[], [(0, ⟨0, [], .active⟩), (1, ⟨1, [("a", [("v", "1")])], .active⟩)], 2, 2⟩

/-- A state whose key `"k"` has one committed version with value
`{"a": "1"}`, with transaction 1 active and an empty buffer. -/
def stVisibleRecord : EngineState :=
  ⟨[("k", [⟨[("a", "1")], 0, 1, 0⟩])], [(1, ⟨1, [], .active⟩)], 2, 2⟩

/-- `stTwoTx` after transaction 0 buffers a write of `{"x": "1"}` to `"b"`. -/
def stTwoTxPut : EngineState :=
  ⟨[], [(0, ⟨0, [("b", [("x", "1")])], .active⟩),
        (1, ⟨1, [("a", [("v", "1")])], .active⟩)], 2, 2⟩

/-- `stTwoTx` after transaction 1 commits its buffered write to `"a"` at
commit timestamp 2. -/
def stAfterCommit : EngineState :=
  ⟨[("a", [⟨[("v", "1")], 2, 1, 1⟩])],
   [(0, ⟨0, [], .active⟩), (1, ⟨1, [("a", [("v", "1")])], .committed⟩)], 3, 2⟩

/-! # Theorems -/

theorem alookup_aset_self {α β : Type} [DecidableEq α] (k : α) (v : β)
    (l : List (α × β)) : alookup k (aset k v l) = some v := by
  induction l with
  | nil => simp [alookup, aset]
  | cons p rest ih =>
    by_cases h : p.1 = k
    · simp [aset, h, alookup]
    · simp [aset, h, alookup, ih]

theorem alookup_aset_ne {α β : Type} [DecidableEq α] (k k' : α) (v : β)
    (l : List (α × β)) (h : k ≠ k') : alookup k' (aset k v l) = alookup k' l := by
  induction l with
  | nil => simp [alookup, aset, h]
  | cons p rest ih =>
    by_cases hp : p.1 = k
    · simp [aset, hp, alookup, h, hp ▸ h]
    · simp [aset, hp, alookup, ih]

theorem alookup_aerase_self {α β : Type} [DecidableEq α] (k : α)
    (l : List (α × β)) : alookup k (aerase k l) = none := by
  induction l with
  | nil => simp [alookup, aerase]
  | cons p rest ih =>
    by_cases hp : p.1 = k
    · simpa [aerase, hp] using ih
    · simpa [aerase, hp, alookup, hp] using ih

theorem alookup_aerase_ne {α β : Type} [DecidableEq α] (k k' : α)
    (l : List (α × β)) (h : k ≠ k') : alookup k' (aerase k l) = alookup k' l := by
  induction l with
  | nil => simp [alookup, aerase]
  | cons p rest ih =>
    by_cases hp : p.1 = k
    · simpa [aerase, List.filter_cons, hp, alookup, h] using ih
    · by_cases hq : p.1 = k'
      · simp [aerase, List.filter_cons, hp, alookup, hq, Ne.symm h]
      · simpa [aerase, List.filter_cons, hp, alookup, hq] using ih

theorem walFilename_inj {t t' : String} (h : walFilename t = walFilename t') :
    t = t' := by
  have hd : t.data ++ ".wal".data = t'.data ++ ".wal".data := by
    have := congrArg String.data h
    simpa [walFilename] using this
  have hdata : t.data = t'.data := List.append_cancel_right hd
  cases t; cases t'
  exact congrArg String.mk (by simpa using hdata)

theorem read_log_write_log_self (st : WALState) (t d : String) :
    read_log (write_log st t d) t = some d := by
  simp [read_log, write_log, alookup_aset_self]

theorem walStep_preserves (st : WALState) (t : String) (op : WALOp)
    (h : touches t op = false) :
    read_log (walStep st op) t = read_log st t := by
  cases op with
  | writeOp t' d =>
    have hne : t' ≠ t := by
      intro he; simp [touches, he] at h
    have hfn : walFilename t' ≠ walFilename t := fun hc => hne (walFilename_inj hc)
    simp [walStep, write_log, read_log, alookup_aset_ne _ _ _ _ hfn]
  | deleteOp t' =>
    have hne : t' ≠ t := by
      intro he; simp [touches, he] at h
    have hfn : walFilename t' ≠ walFilename t := fun hc => hne (walFilename_inj hc)
    cases hl : alookup (walFilename t') st with
    | none => simp [walStep, delete_log, read_log, hl]
    | some v =>
      simp [walStep, delete_log, read_log, hl, alookup_aerase_ne _ _ _ hfn]

theorem walRun_preserves (ops : List WALOp) (st : WALState) (t : String)
    (h : ∀ op ∈ ops, touches t op = false) :
    read_log (walRun st ops) t = read_log st t := by
  induction ops generalizing st with
  | nil => rfl
  | cons op rest ih =>
    have h1 : touches t op = false := h op (List.mem_cons_self _ _)
    have h2 : ∀ o ∈ rest, touches t o = false := fun o ho => h o (List.mem_cons_of_mem _ ho)
    calc read_log (walRun st (op :: rest)) t
        = read_log (walRun (walStep st op) rest) t := rfl
      _ = read_log (walStep st op) t := ih _ h2
      _ = read_log st t := walStep_preserves st t op h1

/-- C3: WAL read-back round trip — after `write_log(t, d)` and any further
WAL operations that do not address `t` (in particular before any
`delete_log(t)`), `read_log(t)` returns the written payload `d`. -/
theorem wal_write_read_roundtrip (st : WALState) (t d : String)
    (ops : List WALOp) (h : ∀ op ∈ ops, touches t op = false) :
    read_log (walRun (write_log st t d) ops) t = some d := by
  calc read_log (walRun (write_log st t d) ops) t
      = read_log (write_log st t d) t := walRun_preserves ops _ t h
    _ = some d := read_log_write_log_self st t d

/-- C3 witness: a concrete write of payload `"data"` for id `"t1"`, followed
by a write and a delete for other ids, still reads back `"data"`. -/
theorem wal_write_read_roundtrip_witness :
    read_log (walRun (write_log [] "t1" "data")
      [WALOp.writeOp "t2" "x", WALOp.deleteOp "t3"]) "t1" = some "data" :=
  wal_write_read_roundtrip [] "t1" "data"
    [WALOp.writeOp "t2" "x", WALOp.deleteOp "t3"] (by decide)

/-- C9: `delete_log` is total and idempotent — when no log entry exists for
the id, `delete_log` leaves the directory unchanged (it never raises: the
removal is guarded by `os.path.exists`), and a second `delete_log` of the
same id after a first one changes nothing. -/
theorem delete_log_total_idempotent (st : WALState) (t : String) :
    (read_log st t = none → delete_log st t = st) ∧
      delete_log (delete_log st t) t = delete_log st t := by
  constructor
  · intro h
    simp only [read_log] at h
    simp [delete_log, h]
  · cases hl : alookup (walFilename t) st with
    | none => simp [delete_log, hl]
    | some v =>
      have h2 : alookup (walFilename t) (aerase (walFilename t) st) = none :=
        alookup_aerase_self _ _
      simp [delete_log, hl, h2]

/-- C9 witness: deleting the absent id `"t9"` from a one-file directory
changes nothing, and deleting `"t1"` twice equals deleting it once. -/
theorem delete_log_total_idempotent_witness :
    (delete_log [("t1.wal", "d")] "t9" = [("t1.wal", "d")]) ∧
      delete_log (delete_log [("t1.wal", "d")] "t1") "t1" =
        delete_log [("t1.wal", "d")] "t1" :=
  ⟨(delete_log_total_idempotent [("t1.wal", "d")] "t9").1 (by decide),
   (delete_log_total_idempotent [("t1.wal", "d")] "t1").2⟩

/-! ### Engine lemmas -/

theorem put_store_unchanged (st : EngineState) (k : String) (v : Value) (t : Nat) :
    (((put st k v t).toOption).getD st).store = st.store := by
  cases hl : alookup t st.transactions with
  | none => simp [put, hl, Except.toOption]
  | some tx =>
    by_cases hs : tx.status = .active <;> simp [put, hl, hs, Except.toOption]

theorem putsUnder_store_unchanged (puts : List (String × Value))
    (st : EngineState) (t : Nat) : (putsUnder st t puts).store = st.store := by
  induction puts generalizing st with
  | nil => rfl
  | cons kv rest ih =>
    calc (putsUnder st t (kv :: rest)).store
        = (putsUnder (((put st kv.1 kv.2 t).toOption).getD st) t rest).store := rfl
      _ = (((put st kv.1 kv.2 t).toOption).getD st).store := ih _
      _ = st.store := put_store_unchanged st kv.1 kv.2 t

theorem putsUnder_keeps_active (puts : List (String × Value)) (st : EngineState)
    (t : Nat) (s : Nat) (b : List (String × Value))
    (hT : alookup t st.transactions = some ⟨s, b, .active⟩) :
    ∃ buf, alookup t (putsUnder st t puts).transactions = some ⟨s, buf, .active⟩ := by
  induction puts generalizing st b with
  | nil => exact ⟨b, hT⟩
  | cons kv rest ih =>
    have hput : put st kv.1 kv.2 t =
        .ok { st with transactions := aset t ⟨s, aset kv.1 kv.2 b, .active⟩ st.transactions } := by
      simp [put, hT]
    have hfold : putsUnder st t (kv :: rest) =
        putsUnder { st with transactions := aset t ⟨s, aset kv.1 kv.2 b, .active⟩ st.transactions }
          t rest := by
      simp [putsUnder, hput, Except.toOption]
    rw [hfold]
    exact ih _ _ (alookup_aset_self t _ st.transactions)

theorem rollback_ok (st : EngineState) (t s : Nat) (b : List (String × Value))
    (hT : alookup t st.transactions = some ⟨s, b, .active⟩) :
    rollback st t =
      .ok { st with transactions := aset t ⟨s, [], .aborted⟩ st.transactions } := by
  simp [rollback, hT]

/-- C4: Rollback leaves history untouched — for an active transaction, after
any sequence of `put` calls under it, `rollback` succeeds and the store (the
Version Chain of every key, touched or not) is exactly as before the puts,
because `put` only buffers and `rollback` creates no version. -/
theorem rollback_preserves_store (st : EngineState) (t s : Nat)
    (b : List (String × Value)) (puts : List (String × Value))
    (hT : alookup t st.transactions = some ⟨s, b, .active⟩) :
    ∃ st', rollback (putsUnder st t puts) t = .ok st' ∧ st'.store = st.store := by
  obtain ⟨buf, hb⟩ := putsUnder_keeps_active puts st t s b hT
  refine ⟨_, rollback_ok _ _ _ _ hb, ?_⟩
  simpa using putsUnder_store_unchanged puts st t

/-- C4 witness: rolling back transaction 0 of `stTwoTx` after it buffered a
write to `"x"` leaves the (empty) store unchanged. -/
theorem rollback_preserves_store_witness :
    ∃ st', rollback (putsUnder stTwoTx 0 [("x", [("y", "2")])]) 0 = .ok st' ∧
      st'.store = stTwoTx.store :=
  rollback_preserves_store stTwoTx 0 0 [] [("x", [("y", "2")])] (by decide)

/-- C6: Read-your-own-writes — after `put(k, v, T)` on an active transaction
`T`, `get(k, T)` returns the buffered `v`, while `get(k)` without a
transaction id and `get(k, T')` for any other id are exactly what they were
before the `put` (the uncommitted write is invisible to them). -/
theorem read_your_own_writes (st st' : EngineState) (t s : Nat)
    (b : List (String × Value)) (k : String) (v : Value)
    (hT : alookup t st.transactions = some ⟨s, b, .active⟩)
    (hp : put st k v t = .ok st') :
    get st' k (some t) = .ok (some v) ∧
      get st' k none = get st k none ∧
      (∀ t', t' ≠ t → get st' k (some t') = get st k (some t')) := by
  have hst' : st' = { st with transactions := aset t ⟨s, aset k v b, .active⟩ st.transactions } := by
    simp [put, hT] at hp
    exact hp.symm
  subst hst'
  refine ⟨?_, rfl, ?_⟩
  · simp [get, alookup_aset_self, chainOf]
  · intro t' hne
    have hl : alookup t' (aset t ⟨s, aset k v b, .active⟩ st.transactions) =
        alookup t' st.transactions := alookup_aset_ne t t' _ _ (Ne.symm hne)
    simp [get, hl, chainOf]

/-- C6 witness: in `stTwoTx`, transaction 0 has buffered `{"x": "1"}` at
`"b"` (state `stTwoTxPut`); its own `get` sees the value while transaction
1's `get` is unchanged. -/
theorem read_your_own_writes_witness :
    get stTwoTxPut "b" (some 0) = .ok (some [("x", "1")]) ∧
      get stTwoTxPut "b" (some 1) = get stTwoTx "b" (some 1) := by
  have h := read_your_own_writes stTwoTx stTwoTxPut 0 0 [] "b" [("x", "1")]
    (by decide) (by rfl)
  exact ⟨h.1, h.2.2 1 (by decide)⟩

theorem latest_append_version (store : List (String × List Version))
    (k k' : String) (v : Value) (cts tC ts : Nat) (h : ts < cts) :
    latest_at_or_before ((alookup k (append_version store k' v cts tC)).getD []) ts
      = latest_at_or_before ((alookup k store).getD []) ts := by
  have hle : ¬ cts ≤ ts := by omega
  by_cases hk : k' = k
  · subst hk
    simp [append_version, alookup_aset_self, latest_at_or_before,
      List.filter_append, hle]
  · simp [append_version, alookup_aset_ne k' k _ store hk]

theorem latest_commitStore (buf : List (String × Value))
    (store : List (String × List Version)) (cts tC ts : Nat) (h : ts < cts)
    (k : String) :
    latest_at_or_before ((alookup k (commitStore buf store cts tC)).getD []) ts
      = latest_at_or_before ((alookup k store).getD []) ts := by
  induction buf generalizing store with
  | nil => rfl
  | cons kv rest ih =>
    calc latest_at_or_before
          ((alookup k (commitStore (kv :: rest) store cts tC)).getD []) ts
        = latest_at_or_before
            ((alookup k (commitStore rest (append_version store kv.1 kv.2 cts tC)
              cts tC)).getD []) ts := rfl
      _ = latest_at_or_before
            ((alookup k (append_version store kv.1 kv.2 cts tC)).getD []) ts :=
          ih _
      _ = latest_at_or_before ((alookup k store).getD []) ts :=
          latest_append_version store k kv.1 kv.2 cts tC ts h

/-- C1: Snapshot isolation of reads — when any other transaction commits
after an active transaction `T` began, `T`'s `get` is unchanged, and (when
`T` has not buffered the key itself) still resolves to the version that was
latest at or before `T`'s `start_timestamp` in the pre-commit state: it never
observes the later commit. -/
theorem snapshot_isolation_reads (st st' : EngineState) (tT tC : Nat)
    (tx : Transaction) (k : String)
    (hT : alookup tT st.transactions = some tx) (ha : tx.status = .active)
    (hclk : tx.start_timestamp < st.clock) (hne : tC ≠ tT)
    (hc : commit st tC = .ok st') :
    get st' k (some tT) = get st k (some tT) ∧
      (alookup k tx.write_buffer = none →
        get st' k (some tT) =
          .ok ((latest_at_or_before (chainOf st k) tx.start_timestamp).map
                (fun v => v.value))) := by
  cases hl : alookup tC st.transactions with
  | none => simp [commit, hl] at hc
  | some txC =>
    by_cases hs : txC.status = .active
    · have hst' : st' = { st with
          store := commitStore txC.write_buffer st.store st.clock tC
          transactions := aset tC { txC with status := .committed } st.transactions
          clock := st.clock + 1 } := by
        simp [commit, hl, hs] at hc
        exact hc.symm
      subst hst'
      have htT : alookup tT
          (aset tC { txC with status := TxStatus.committed } st.transactions) =
          some tx := by
        rw [alookup_aset_ne tC tT _ _ hne]; exact hT
      have hchain :
          latest_at_or_before
            ((alookup k (commitStore txC.write_buffer st.store st.clock tC)).getD [])
            tx.start_timestamp
          = latest_at_or_before ((alookup k st.store).getD []) tx.start_timestamp :=
        latest_commitStore _ _ _ _ _ hclk _
      constructor
      · cases hb : alookup k tx.write_buffer with
        | some v => simp [get, htT, hT, ha, hb]
        | none => simp [get, htT, hT, ha, hb, chainOf, hchain]
      · intro hb
        simp [get, htT, ha, hb, chainOf, hchain]
    · simp [commit, hl, hs] at hc

/-- C1 witness: transaction 0 of `stTwoTx` began at time 0; after transaction
1 commits `"a"` at time 2 (state `stAfterCommit`), `get("a", 0)` still
returns absent, while a fresh non-transactional `get("a")` sees the commit. -/
theorem snapshot_isolation_reads_witness :
    get stAfterCommit "a" (some 0) = .ok none ∧
      get stAfterCommit "a" none = .ok (some [("v", "1")]) := by
  have h := snapshot_isolation_reads stTwoTx stAfterCommit 0 1 ⟨0, [], .active⟩
    "a" (by decide) rfl (by decide) (by decide) (by rfl)
  exact ⟨by simpa using h.2 rfl, by rfl⟩

theorem foldl_max_range' (n : Nat) : (List.range' 1 n).foldl Nat.max 0 = n := by
  induction n with
  | zero => rfl
  | succ m ih =>
    rw [List.range'_1_concat, List.foldl_append, ih]
    simp [List.foldl]
    omega

theorem range'_snoc (n : Nat) :
    List.range' 1 (n + 1) = List.range' 1 n ++ [n + 1] := by
  rw [List.range'_1_concat, Nat.add_comm]

/-- The version numbers of every chain in a store are exactly `1, 2, …, n`. -/
def StoreOk (store : List (String × List Version)) : Prop :=
  ∀ k : String,
    ((alookup k store).getD []).map (fun v => v.version_number) =
      List.range' 1 ((alookup k store).getD []).length

theorem storeOk_append_version (store : List (String × List Version))
    (k' : String) (v : Value) (cts t : Nat) (h : StoreOk store) :
    StoreOk (append_version store k' v cts t) := by
  intro k
  by_cases hk : k' = k
  · subst hk
    have hchain := h k'
    have hnum : next_version_number ((alookup k' store).getD []) =
        ((alookup k' store).getD []).length + 1 := by
      unfold next_version_number
      rw [hchain, foldl_max_range']
    simp only [append_version, alookup_aset_self, Option.getD_some]
    rw [List.map_append, hchain, hnum]
    simp only [List.map_cons, List.map_nil, List.length_append, List.length_cons,
      List.length_nil, Nat.zero_add]
    rw [← range'_snoc]
  · simp only [append_version, alookup_aset_ne k' k _ store hk]
    exact h k

theorem storeOk_commitStore (buf : List (String × Value))
    (store : List (String × List Version)) (cts t : Nat) (h : StoreOk store) :
    StoreOk (commitStore buf store cts t) := by
  induction buf generalizing store with
  | nil => exact h
  | cons kv rest ih => exact ih _ (storeOk_append_version store kv.1 kv.2 cts t h)

theorem storeOk_step (st : EngineState) (op : Op) (h : StoreOk st.store) :
    StoreOk (step st op).store := by
  cases op with
  | beginTx => exact h
  | putOp k v t =>
    cases hl : alookup t st.transactions with
    | none => simpa [step, put, hl, Except.toOption] using h
    | some tx =>
      by_cases hs : tx.status = .active <;>
        simpa [step, put, hl, hs, Except.toOption] using h
  | commitOp t =>
    cases hl : alookup t st.transactions with
    | none => simpa [step, commit, hl, Except.toOption] using h
    | some tx =>
      by_cases hs : tx.status = .active
      · have hc := storeOk_commitStore tx.write_buffer st.store st.clock t h
        simpa [step, commit, hl, hs, Except.toOption] using hc
      · simpa [step, commit, hl, hs, Except.toOption] using h
  | rollbackOp t =>
    cases hl : alookup t st.transactions with
    | none => simpa [step, rollback, hl, Except.toOption] using h
    | some tx =>
      by_cases hs : tx.status = .active <;>
        simpa [step, rollback, hl, hs, Except.toOption] using h

theorem storeOk_foldl (ops : List Op) (st : EngineState) (h : StoreOk st.store) :
    StoreOk (ops.foldl step st).store := by
  induction ops generalizing st with
  | nil => exact h
  | cons op rest ih => exact ih _ (storeOk_step st op h)

/-- C5: Version-number invariant — after any sequence of
begin/put/commit/rollback operations from the empty engine, every key's
Version Chain carries version numbers exactly `1, 2, …, n` in order (strictly
increasing from 1 with no gaps), whatever other keys were touched. -/
theorem version_numbers_range (ops : List Op) (k : String) :
    (chainOf (run ops) k).map (fun v => v.version_number) =
      List.range' 1 (chainOf (run ops) k).length :=
  storeOk_foldl ops initState (fun _ => rfl) k

/-! ### Consumer claims -/

/-- C2 counterexample: in `KatamariIAM.create_user`, when the username
already exists (the exception path, lines 112-114), the handler leaves the
transaction `Committed` — it issues `commit(tx_id)`, not `rollback`, on the
failure path, contradicting the claimed rollback-on-exception pattern. -/
theorem create_user_commits_on_failure :
    alookup 1 (create_user stUserExists "alice" []).transactions =
      some ⟨1, [], TxStatus.committed⟩ ∧
      TxStatus.committed ≠ TxStatus.aborted := by
  exact ⟨by decide, by decide⟩

/-- C2 (amended): the example data pullers' exception handlers issue
`rollback` when the transaction id is still known to the engine (leaving the
store unchanged and the transaction Aborted), but the `KatamariIAM` handlers
instead issue `commit` on the failure path: `create_user` ends its
transaction `Committed` when the username-exists check raises. -/
theorem rollback_on_exception_amended :
    (∀ st t tx, alookup t st.transactions = some tx → tx.status = TxStatus.active →
        (puller_on_exception st t).store = st.store ∧
          alookup t (puller_on_exception st t).transactions =
            some ⟨tx.start_timestamp, [], TxStatus.aborted⟩) ∧
      (∀ st u v,
        truthyOpt (((get (begin_transaction st).2 ("user:" ++ u)
            (some (begin_transaction st).1)).toOption).getD none) = true →
        alookup (begin_transaction st).1 (create_user st u v).transactions =
          some ⟨st.clock, [], TxStatus.committed⟩) := by
  constructor
  · intro st t tx hT ha
    cases tx with
    | mk s b status =>
      cases ha
      have hroll := rollback_ok st t s b hT
      constructor
      · simp [puller_on_exception, hT, hroll, Except.toOption]
      · simp [puller_on_exception, hT, hroll, Except.toOption, alookup_aset_self]
  · intro st u v htr
    simp only [begin_transaction] at htr ⊢
    unfold create_user
    simp only [begin_transaction]
    rw [if_pos htr]
    have hl : alookup st.next_id
        (aset st.next_id (⟨st.clock, [], .active⟩ : Transaction) st.transactions) =
          some ⟨st.clock, [], .active⟩ := alookup_aset_self _ _ _
    simp [commit, hl, commitStore, Except.toOption, alookup_aset_self]

/-- C2 witness: the puller handler rolls back active transaction 0 of
`stTwoTx` leaving the store unchanged, and `create_user` on a state where
`"alice"` exists ends its transaction `Committed`. -/
theorem rollback_on_exception_amended_witness :
    (puller_on_exception stTwoTx 0).store = stTwoTx.store ∧
      alookup 1 (create_user stUserExists "alice" []).transactions =
        some ⟨1, [], TxStatus.committed⟩ :=
  ⟨(rollback_on_exception_amended.1 stTwoTx 0 ⟨0, [], .active⟩ (by decide) rfl).1,
   rollback_on_exception_amended.2 stUserExists "alice" [] (by decide)⟩

/-- C7: Search snapshot filter — every result returned by
`KatamariSearch.search` has an indexed timestamp at most the querying
transaction's start time, whatever the query, schema fields and index
contents. -/
theorem search_filters_by_tx_start
    (matchFn : String → List String → SearchDoc → Bool) (index : List SearchDoc)
    (query_str : String) (tx_start_time : Nat) (schema_fields : List String)
    (r : SearchDoc)
    (h : r ∈ search matchFn index query_str tx_start_time schema_fields) :
    r.timestamp ≤ tx_start_time := by
  unfold search at h
  have h2 := (List.mem_filter.1 h).2
  simpa using h2

/-- C7 witness: a document with timestamp 3 returned for a query at
transaction start time 5 indeed has timestamp ≤ 5. -/
theorem search_filters_by_tx_start_witness :
    (⟨"d1", 3, []⟩ : SearchDoc) ∈
        search (fun _ _ _ => true) [⟨"d1", 3, []⟩] "q" 5 [] ∧ (3 : Nat) ≤ 5 :=
  ⟨by decide,
   search_filters_by_tx_start (fun _ _ _ => true) [⟨"d1", 3, []⟩] "q" 5 []
     ⟨"d1", 3, []⟩ (by decide)⟩

/-- C8: Read-compare-conditional-write — for every fetched record of a
data-puller batch (all four pullers build their record as a literal dict
with fixed keys: `FlightTracker.py` lines 42-57, `IoTTracker.py` lines
41-54, `AirQual.py` lines 42-51, `EarthQuake.py` lines 41-48 — so the
fetched value is a non-empty, truthy dict), the handler issues no `put`
exactly when the key already has a visible record under the batch's
transaction equal to the fetched data; a `put` is issued only when the key
is new (no visible record) or the data differs. -/
theorem handle_record_conditional_write (st : EngineState) (t : Nat)
    (key : String) (info : Value) (h : truthy info = true) :
    (handle_record st t key info).2 = false ↔
      ((get st key (some t)).toOption).getD none = some info := by
  unfold handle_record
  cases ht : truthyOpt (((get st key (some t)).toOption).getD none) with
  | false =>
    simp [ht]
    intro he
    rw [he] at ht
    simp [truthyOpt, h] at ht
  | true =>
    by_cases he : ((get st key (some t)).toOption).getD none = some info
    · have ht2 : truthyOpt (some info) = true := by
        rw [← he]; exact ht
      simp [ht, he, ht2]
    · simp [ht, he]

/-- C8 witness: with the non-empty record `{"a": "1"}` visible at `"k"`
under transaction 1, fetching equal data issues no `put`, while fetching
differing data `{"a": "2"}` issues one. -/
theorem handle_record_conditional_write_witness :
    truthy [("a", "1")] = true ∧
      (handle_record stVisibleRecord 1 "k" [("a", "1")]).2 = false ∧
      (handle_record stVisibleRecord 1 "k" [("a", "2")]).2 = true :=
  ⟨by decide,
   (handle_record_conditional_write stVisibleRecord 1 "k" [("a", "1")]
     (by decide)).2 (by decide),
   by decide⟩

/-- C10: constructing `KatamariSearch` with no `schema_fields` (the declared
default `None`) raises `AttributeError` from `_create_schema`'s
`fields.items()` instead of building a default schema of only the `id` and
`timestamp` fields. -/
theorem create_schema_none_raises :
    katamariSearch_init none =
      .error (.attributeError "NoneType object has no attribute items") := rfl

end Katamari
